import Mathlib

set_option maxRecDepth 4000

/-!
# AuraGameSurveyFrontend — verification of the telemetry and progression core

A shallow embedding of the behavioral-telemetry pipeline and of the challenge
progression state machine of the AuraGameSurveyFrontend repository, together
with theorems settling the specification claims about them.

The embedding covers:

* the batching delivery subsystem of `MotorSkillsTracker`
  (`addToBuffer` / `flushBatch`);
* the pointer `Sampler` of `MotorSkillsTracker` (`trackPointerMove`), its
  throttling and its normalized sample buffer;
* the kinematics analyzer (`analyzeTrajectory`) and the overshoot-detection
  window of `MotorSkillsGame.sampleCursorPosition`;
* the `gameReducer` / `completeChallenge` challenge state machine of
  `GameContext`, with its session-storage load path.

Modelling conventions:

* JavaScript numbers that only ever hold integers (timestamps, counters) are
  `ℤ` or `ℕ`; coordinates and derived kinematics are `ℝ`.
* A JavaScript division is `jsDiv`, returning `Option ℝ`: `none` stands for a
  non-finite result (`NaN` or `±Infinity`, which arise exactly when the
  denominator is `0`); `some x` is the finite result.
* JSON-valued blobs (challenge results, per-stage progress) are the inductive
  `JVal`; JavaScript objects used as string-keyed maps are association lists
  updated with JavaScript property-assignment / spread semantics.
* The single `MotorSkillsTracker` class instance is split into two records,
  `BatchState` (the delivery buffer and its timer) and `TrackerState` (the
  sampler fields); the two groups of fields are touched by disjoint methods.
* `async` functions in the source contain no `await` before any of the
  mutations modelled here, so every modelled operation is a pure synchronous
  state transition; network calls are recorded in a `List NetRequest` output
  rather than performed.
-/

namespace Aura

/-! ## Batching delivery subsystem (`MotorSkillsTracker`, part_002)

`this.interactionBuffer`, `this.BATCH_SIZE`, `this.BATCH_TIMEOUT`,
`this.batchTimer`, and the methods `addToBuffer` and `flushBatch`.
-/

/-- One interaction record as built by `logInteraction` (part_002 lines
471-486); the type-specific payload fields are irrelevant to the buffer
logic and are not modelled. -/
structure Interaction where
  sessionId : String
  moduleName : String
  round : ℕ
  eventType : String
  timestamp : ℤ
  deriving DecidableEq, Repr

/-- A network request that the delivery subsystem could issue. -/
inductive NetRequest where
  | post (path : String) (events : List Interaction)
  deriving DecidableEq, Repr

/-- Constant `this.BATCH_SIZE = 15` (part_002 line 34). -/
def BATCH_SIZE : ℕ := 15

/-- Constant `this.BATCH_TIMEOUT = 3000` ms (part_002 line 35). -/
def BATCH_TIMEOUT : ℕ := 3000

/-- The delivery-buffer portion of the `MotorSkillsTracker` state:
`interactionBuffer` and whether `batchTimer` currently holds a live timer. -/
structure BatchState where
  interactionBuffer : List Interaction
  batchTimerSet : Bool
  deriving DecidableEq, Repr

/-- Constructor state: `this.interactionBuffer = []`, `this.batchTimer = null`
(part_002 lines 33-36). -/
def initBatchState : BatchState := ⟨[], false⟩

/-- Method `flushBatch` (part_002 lines 457-469): if the buffer is empty, return at
once; otherwise copy the buffer into the local `batch`, reset the buffer to
`[]`, and clear the pending timer.  The local `batch` is never used again:
the source issues no network request, so the request list returned here is
`[]` in every case. -/
def flushBatch (s : BatchState) : BatchState × List NetRequest :=
  if s.interactionBuffer.length = 0 then (s, [])
  else ({ interactionBuffer := [], batchTimerSet := false }, [])

/-- Method `addToBuffer(data)` (part_002 lines 440-455): push onto the buffer; if the
buffer length reached `BATCH_SIZE`, call `flushBatch` (once); otherwise clear
any pending timer and start a fresh `BATCH_TIMEOUT` timer.  The middle
component counts the `flushBatch` invocations made by this call. -/
def addToBuffer (s : BatchState) (data : Interaction) : BatchState × ℕ × List NetRequest :=
  let s1 : BatchState := { s with interactionBuffer := s.interactionBuffer ++ [data] }
  if BATCH_SIZE ≤ s1.interactionBuffer.length then
    let fl := flushBatch s1
    (fl.1, 1, fl.2)
  else
    ({ s1 with batchTimerSet := true }, 0, [])

/-- Firing of the `BATCH_TIMEOUT` timer: a timer that was cleared never fires,
so the step is a no-op unless a timer is live; a live timer runs
`() => this.flushBatch()` (part_002 lines 451-453). -/
def batchTimerFire (s : BatchState) : BatchState × List NetRequest :=
  if s.batchTimerSet then flushBatch s else (s, [])

/-- The operations that touch the delivery buffer. -/
inductive BatchOp where
  | append (data : Interaction)
  | timerFire
  deriving DecidableEq, Repr

/-- One step of the delivery subsystem (state part only). -/
def batchStep (s : BatchState) (op : BatchOp) : BatchState :=
  match op with
  | .append data => (addToBuffer s data).1
  | .timerFire => (batchTimerFire s).1

/-- Run a sequence of delivery-buffer operations. -/
def batchRun (s : BatchState) (ops : List BatchOp) : BatchState :=
  ops.foldl batchStep s

/-- A sample interaction record, used to instantiate the theorems. -/
def sampleInteraction : Interaction :=
  { sessionId := "session_1", moduleName := "motorSkills", round := 1,
    eventType := "bubble_spawn", timestamp := 0 }

lemma addToBuffer_fst_length_lt (s : BatchState) (data : Interaction)
    (h : s.interactionBuffer.length < BATCH_SIZE) :
    (addToBuffer s data).1.interactionBuffer.length < BATCH_SIZE := by
  simp only [addToBuffer, flushBatch]
  split_ifs with h1 h2 <;> simp_all [BATCH_SIZE]
  omega

lemma batchTimerFire_fst_length_lt (s : BatchState)
    (h : s.interactionBuffer.length < BATCH_SIZE) :
    (batchTimerFire s).1.interactionBuffer.length < BATCH_SIZE := by
  simp only [batchTimerFire, flushBatch]
  split_ifs <;> simp_all [BATCH_SIZE]

lemma batchStep_length_lt (s : BatchState) (op : BatchOp)
    (h : s.interactionBuffer.length < BATCH_SIZE) :
    (batchStep s op).interactionBuffer.length < BATCH_SIZE := by
  cases op with
  | append data => exact addToBuffer_fst_length_lt s data h
  | timerFire => exact batchTimerFire_fst_length_lt s h

lemma batchRun_length_lt (ops : List BatchOp) (s : BatchState)
    (h : s.interactionBuffer.length < BATCH_SIZE) :
    (batchRun s ops).interactionBuffer.length < BATCH_SIZE := by
  induction ops generalizing s with
  | nil => simpa [batchRun] using h
  | cons op rest ih =>
      simpa [batchRun] using ih (batchStep s op) (batchStep_length_lt s op h)

/-- Claim C4 — For every sequence of operations on the delivery buffer starting
from the freshly constructed tracker, the buffer length immediately after any
`addToBuffer` call (indeed after any operation) never exceeds
`BATCH_SIZE = 15`; and an `addToBuffer` call on a buffer holding
`BATCH_SIZE - 1 = 14` records invokes `flushBatch` exactly once and leaves the
buffer at length 0. -/
theorem C4_batch_size_invariant :
    (∀ ops : List BatchOp,
        (batchRun initBatchState ops).interactionBuffer.length ≤ BATCH_SIZE) ∧
    (∀ (s : BatchState) (data : Interaction),
        s.interactionBuffer.length = BATCH_SIZE - 1 →
          (addToBuffer s data).2.1 = 1 ∧
          (addToBuffer s data).1.interactionBuffer.length = 0) := by
  constructor
  · intro ops
    exact (batchRun_length_lt ops initBatchState (by simp [initBatchState, BATCH_SIZE])).le
  · intro s data h
    have h14 : s.interactionBuffer.length = 14 := by simpa [BATCH_SIZE] using h
    simp [addToBuffer, flushBatch, h14, BATCH_SIZE]

/-- Witness for `C4_batch_size_invariant`: 15 consecutive appends stay within
the bound, and an append onto a 14-element buffer flushes to length 0. -/
theorem C4_batch_size_invariant_witness :
    (batchRun initBatchState
        (List.replicate 15 (BatchOp.append sampleInteraction))).interactionBuffer.length
        ≤ BATCH_SIZE ∧
    ((List.replicate 14 sampleInteraction).length = BATCH_SIZE - 1 ∧
      (addToBuffer ⟨List.replicate 14 sampleInteraction, true⟩ sampleInteraction).2.1 = 1 ∧
      (addToBuffer ⟨List.replicate 14 sampleInteraction, true⟩
          sampleInteraction).1.interactionBuffer.length = 0) :=
  ⟨C4_batch_size_invariant.1 _,
    by simp [BATCH_SIZE],
    C4_batch_size_invariant.2 ⟨List.replicate 14 sampleInteraction, true⟩
      sampleInteraction (by simp [BATCH_SIZE])⟩

/-- Claim C1 — `flushBatch` never issues a network request: on a non-empty
buffer it swaps the buffer out for an empty one and cancels the pending
timer, but the swapped-out batch (the unused local `batch` in the source) is
discarded, not delivered.  The second conjunct evaluates the operation on a
concrete one-element buffer.  This contradicts the claim (and the source's
own comments "Flush batch to backend" and "Flush current batch to ensure
data is sent"): delivery of the swapped-out events is never attempted. -/
theorem C1_flushBatch_issues_no_delivery :
    (∀ s : BatchState, (flushBatch s).2 = []) ∧
    flushBatch ⟨[sampleInteraction], true⟩ =
      ({ interactionBuffer := [], batchTimerSet := false }, []) := by
  constructor
  · intro s
    unfold flushBatch
    split <;> rfl
  · rfl

/-! ## Challenge progression state machine (`GameContext`, part_013)

`CHALLENGE_ORDER`, `PROFILE_TRAITS`, `initialState`, `gameReducer`, the
composite `completeChallenge` action creator, and the session-storage load
effect of `GameProvider`.
-/

/-- A JSON value, for the challenge-result and per-stage-progress blobs. -/
inductive JVal where
  | jnull
  | jbool (b : Bool)
  | jnum (n : ℤ)
  | jstr (s : String)
  | jarr (elems : List JVal)
  | jobj (fields : List (String × JVal))

/-- JavaScript property assignment `m[k] = v` on an object used as a
string-keyed map: overwrite the value in place if the key exists, append the
key otherwise. -/
def setKey (m : List (String × JVal)) (k : String) (v : JVal) :
    List (String × JVal) :=
  if m.any (fun p => p.1 == k) then
    m.map (fun p => if p.1 == k then (k, v) else p)
  else m ++ [(k, v)]

/-- JavaScript object spread `{...old, ...new}`: keys of `old` in order, with
values overridden by `nw` where present, followed by the keys only in `nw`. -/
def spreadObj (old nw : List (String × JVal)) : List (String × JVal) :=
  old.map (fun p => match List.lookup p.1 nw with
    | some v => (p.1, v)
    | none => p) ++
  nw.filter (fun q => !(old.any (fun p => p.1 == q.1)))

/-- Constant `CHALLENGE_ORDER` (part_013 lines 5-12). -/
def CHALLENGE_ORDER : List String :=
  ["intro", "color-blindness", "visual-acuity", "motor-skills",
   "knowledge-quiz", "profile-complete"]

/-- A profile trait record (part_013 lines 15-40). -/
structure Trait where
  id : String
  name : String
  icon : String
  description : String

/-- Constant `PROFILE_TRAITS` (part_013 lines 15-40), as key lookup; `none` models the
absence of the key (`undefined`). -/
def PROFILE_TRAITS (key : String) : Option Trait :=
  if key = "color-blindness" then
    some ⟨"perception", "Pattern Vision", "🎨", "Master of hidden patterns"⟩
  else if key = "visual-acuity" then
    some ⟨"clarity", "Eagle Eye", "🦅", "Sharp focus and precision"⟩
  else if key = "motor-skills" then
    some ⟨"reflexes", "Lightning Reflexes", "⚡", "Quick reactions under pressure"⟩
  else if key = "knowledge-quiz" then
    some ⟨"literacy", "Tech Guru", "🧠", "Digital wisdom unlocked"⟩
  else none

/-- The `stats` slice of the game state (part_013 lines 59-67). -/
structure GameStats where
  totalScore : ℤ
  currentStreak : ℤ
  maxStreak : ℤ
  totalCorrect : ℤ
  totalAttempts : ℤ
  averageResponseTime : ℤ
  responseTimes : List ℤ

/-- The game state held by `useReducer` (part_013 lines 47-96).
`challengeResults` and `challengeProgress` are string-keyed JSON objects. -/
structure GameState where
  userId : Option String
  sessionId : String
  currentPhase : String
  completedChallenges : List String
  stats : GameStats
  unlockedTraits : List Trait
  challengeResults : List (String × JVal)
  challengeProgress : List (String × JVal)
  startTime : Option ℤ
  phaseStartTime : Option ℤ
  showingTransition : Bool
  transitionMessage : String
  isPaused : Bool

/-- Constant `initialState` (part_013 lines 47-96); the impure `generateSessionId()`
result is a parameter. -/
def initialState (sessionId : String) : GameState where
  userId := none
  sessionId := sessionId
  currentPhase := "intro"
  completedChallenges := []
  stats := ⟨0, 0, 0, 0, 0, 0, []⟩
  unlockedTraits := []
  challengeResults :=
    [("colorBlindness", .jnull), ("visualAcuity", .jnull),
     ("motorSkills", .jnull), ("knowledgeQuiz", .jnull)]
  challengeProgress :=
    [("colorBlindness", .jobj [("currentPlate", .jnum 0), ("plates", .jarr [])]),
     ("visualAcuity", .jobj
       [("currentLevel", .jnum 1), ("distanceConfirmed", .jbool false),
        ("lastCorrectLevel", .jnum 1), ("attempts", .jarr [])]),
     ("motorSkills", .jobj
       [("currentRound", .jnum 1),
        ("totalStats", .jobj
          [("hits", .jnum 0), ("misses", .jnum 0), ("bestStreak", .jnum 0)])]),
     ("knowledgeQuiz", .jobj [("currentQuestion", .jnum 0), ("responses", .jarr [])])]
  startTime := none
  phaseStartTime := none
  showingTransition := false
  transitionMessage := ""
  isPaused := false

/-- The subset of the state serialized to `sessionStorage` by the save effect
(part_013 lines 282-300). -/
structure SavedState where
  userId : Option String
  sessionId : String
  currentPhase : String
  completedChallenges : List String
  stats : GameStats
  unlockedTraits : List Trait
  challengeResults : List (String × JVal)
  challengeProgress : List (String × JVal)
  startTime : Option ℤ

/-- The reducer actions dispatched by the operations modelled here
(part_013 lines 99-116); `Date.now()` values are explicit parameters. -/
inductive GameAction where
  | setUserId (userId : String)
  | startGame (now : ℤ)
  | setPhase (phase : String) (now : ℤ)
  | markChallengeComplete (challengeId : String)
  | unlockTrait (t : Trait)
  | showTransition (msg : String)
  | hideTransition
  | saveChallengeResult (challenge : String) (result : JVal)
  | loadSavedState (saved : SavedState)
  | updateChallengeProgress (challenge : String) (progress : List (String × JVal))

/-- Function `gameReducer` (part_013 lines 118-252), restricted to the actions above.
`LOAD_SAVED_STATE` is `{...state, ...action.payload}` where the payload is the
persisted subset, so it replaces exactly the nine saved fields.
`UPDATE_CHALLENGE_PROGRESS` spreads the partial progress over the named
stage's slice. -/
def gameReducer (state : GameState) (action : GameAction) : GameState :=
  match action with
  | .setUserId userId => { state with userId := some userId }
  | .startGame now =>
      { state with startTime := some now, phaseStartTime := some now,
                   currentPhase := "color-blindness" }
  | .setPhase phase now =>
      { state with currentPhase := phase, phaseStartTime := some now }
  | .markChallengeComplete challengeId =>
      { state with completedChallenges := state.completedChallenges ++ [challengeId] }
  | .unlockTrait t =>
      { state with unlockedTraits := state.unlockedTraits ++ [t] }
  | .showTransition msg =>
      { state with showingTransition := true, transitionMessage := msg }
  | .hideTransition =>
      { state with showingTransition := false, transitionMessage := "" }
  | .saveChallengeResult challenge result =>
      { state with challengeResults := setKey state.challengeResults challenge result }
  | .loadSavedState saved =>
      { state with
          userId := saved.userId
          sessionId := saved.sessionId
          currentPhase := saved.currentPhase
          completedChallenges := saved.completedChallenges
          stats := saved.stats
          unlockedTraits := saved.unlockedTraits
          challengeResults := saved.challengeResults
          challengeProgress := saved.challengeProgress
          startTime := saved.startTime }
  | .updateChallengeProgress challenge progress =>
      let oldFields : List (String × JVal) :=
        match List.lookup challenge state.challengeProgress with
        | some (.jobj fields) => fields
        | _ => []
      { state with
          challengeProgress :=
            setKey state.challengeProgress challenge
              (.jobj (spreadObj oldFields progress)) }

/-- JavaScript `Array.prototype.indexOf`: the index of the first occurrence, `-1` when
absent. -/
def jsIndexOf (l : List String) (s : String) : ℤ :=
  if s ∈ l then (l.indexOf s : ℤ) else -1

/-- The composite `completeChallenge` action creator (part_013 lines 315-349):
save the result, append to `completedChallenges`, unlock the trait when the id
has one, show then hide the transition, and, when
`CHALLENGE_ORDER.indexOf(challengeId) < CHALLENGE_ORDER.length - 1`, set the
phase to `CHALLENGE_ORDER[currentIndex + 1]`.  The `getD` default is
unreachable: the index is within bounds in every branch that reads it. -/
def completeChallenge (state : GameState) (challengeId : String) (results : JVal)
    (now : ℤ) : GameState :=
  let s1 := gameReducer state (.saveChallengeResult challengeId results)
  let s2 := gameReducer s1 (.markChallengeComplete challengeId)
  let trait := PROFILE_TRAITS challengeId
  let s3 := match trait with
    | some t => gameReducer s2 (.unlockTrait t)
    | none => s2
  let traitName := match trait with
    | some t => t.name
    | none => "Challenge"
  let s4 := gameReducer s3 (.showTransition (traitName ++ " Unlocked!"))
  let s5 := gameReducer s4 .hideTransition
  let currentIndex := jsIndexOf CHALLENGE_ORDER challengeId
  if currentIndex < (CHALLENGE_ORDER.length : ℤ) - 1 then
    gameReducer s5 (.setPhase (CHALLENGE_ORDER.getD (currentIndex + 1).toNat "undefined") now)
  else s5

/-- JavaScript truthiness of the persisted `startTime`: absent (or `null`)
and `0` are falsy, any other number is truthy. -/
def truthyStart : Option ℤ → Bool
  | some t => t != 0
  | none => false

/-- The load effect of `GameProvider` (part_013 lines 266-279): `none` models
a missing or unparseable storage entry; the parsed state is restored only if
`parsedState.startTime` is truthy and `parsedState.currentPhase !== 'intro'`. -/
def loadSavedGame (state : GameState) (saved : Option SavedState) : GameState :=
  match saved with
  | none => state
  | some p =>
      if truthyStart p.startTime && p.currentPhase != "intro" then
        gameReducer state (.loadSavedState p)
      else state

lemma completeChallenge_completedChallenges (state : GameState)
    (challengeId : String) (results : JVal) (now : ℤ) :
    (completeChallenge state challengeId results now).completedChallenges =
      state.completedChallenges ++ [challengeId] := by
  unfold completeChallenge
  cases PROFILE_TRAITS challengeId <;>
    · simp only [gameReducer]
      split <;> rfl

/-- Claim C2 as amended — the `COMPLETE_CHALLENGE` reducer case appends
unconditionally, with no duplicate check, so every `completeChallenge` call
adds one more entry for its stage: two calls with the same stage identifier
leave two entries, and `completedChallenges` can contain duplicates. -/
theorem C2_complete_appends_unconditionally (state : GameState)
    (challengeId : String) (r1 r2 : JVal) (t1 t2 : ℤ) :
    (completeChallenge (completeChallenge state challengeId r1 t1)
        challengeId r2 t2).completedChallenges =
      state.completedChallenges ++ [challengeId, challengeId] := by
  rw [completeChallenge_completedChallenges, completeChallenge_completedChallenges,
    List.append_assoc]
  rfl

/-- Counterexample to claim C2 — invoking `completeChallenge` twice with
`"color-blindness"` from the initial state leaves two entries for that stage
in `completedChallenges`, not exactly one as the claim states. -/
theorem C2_counterexample :
    (completeChallenge (completeChallenge (initialState "session_1")
        "color-blindness" .jnull 0) "color-blindness" .jnull 0).completedChallenges =
      ["color-blindness", "color-blindness"] := by
  rfl

lemma completeChallenge_currentPhase (state : GameState) (challengeId : String)
    (results : JVal) (now : ℤ) :
    (completeChallenge state challengeId results now).currentPhase =
      if jsIndexOf CHALLENGE_ORDER challengeId < (CHALLENGE_ORDER.length : ℤ) - 1 then
        CHALLENGE_ORDER.getD (jsIndexOf CHALLENGE_ORDER challengeId + 1).toNat "undefined"
      else state.currentPhase := by
  unfold completeChallenge
  cases PROFILE_TRAITS challengeId <;>
    · simp only [gameReducer]
      split <;> rfl

/-- Claim C3 as amended — `completeChallenge` derives the next phase from its
*argument* alone, not from the current phase: an identifier outside
`CHALLENGE_ORDER` has index `-1`, so the phase is set to
`CHALLENGE_ORDER[0] = "intro"`, and completing `"color-blindness"` always
sets the phase to `"visual-acuity"` even if `currentPhase` was already a later
stage — so `completeChallenge` can regress `currentPhase` and can re-enter
`"intro"`. -/
theorem C3_phase_follows_argument :
    (∀ (state : GameState) (challengeId : String) (results : JVal) (now : ℤ),
        challengeId ∉ CHALLENGE_ORDER →
          (completeChallenge state challengeId results now).currentPhase = "intro") ∧
    (∀ (state : GameState) (results : JVal) (now : ℤ),
        (completeChallenge state "color-blindness" results now).currentPhase =
          "visual-acuity") := by
  constructor
  · intro state challengeId results now hmem
    rw [completeChallenge_currentPhase]
    rw [jsIndexOf, if_neg hmem]
    rfl
  · intro state results now
    rw [completeChallenge_currentPhase]
    rfl

/-- Witness for `C3_phase_follows_argument`: instantiated with the identifier
`"bogus"` from a state whose phase is `"motor-skills"` (so the call regresses
the phase to `"intro"`), and with `"color-blindness"` from the same state. -/
theorem C3_phase_follows_argument_witness :
    (completeChallenge (gameReducer (initialState "session_1")
        (.setPhase "motor-skills" 0)) "bogus" .jnull 0).currentPhase = "intro" ∧
    (completeChallenge (gameReducer (initialState "session_1")
        (.setPhase "motor-skills" 0)) "color-blindness" .jnull 0).currentPhase =
      "visual-acuity" :=
  ⟨C3_phase_follows_argument.1 _ "bogus" _ _ (by decide),
   C3_phase_follows_argument.2 _ _ _⟩

/-- Counterexample to claim C3 — from a state in phase `"motor-skills"`, a
`completeChallenge` call with an identifier outside the stage order sets
`currentPhase` back to `"intro"`, which is strictly earlier in
`CHALLENGE_ORDER` than `"motor-skills"`: the claimed no-regression /
no-re-entry property is false. -/
theorem C3_counterexample :
    (completeChallenge (gameReducer (initialState "session_1")
        (.setPhase "motor-skills" 0)) "not-a-stage" .jnull 0).currentPhase = "intro" ∧
    jsIndexOf CHALLENGE_ORDER "intro" < jsIndexOf CHALLENGE_ORDER "motor-skills" := by
  exact ⟨rfl, by decide⟩

/-- Claim C9 — when the persisted per-tab state carries a truthy (non-zero)
`startTime` and a `currentPhase` other than `"intro"`, the load effect
dispatches `LOAD_SAVED_STATE`, whose spread restores the persisted fields
verbatim: the resulting `currentPhase`, the whole per-stage
`challengeProgress` object (including any mid-stage progress), and
`startTime` equal exactly what was persisted. -/
theorem C9_resume_restores_verbatim (state : GameState) (p : SavedState) (t : ℤ)
    (h1 : p.startTime = some t) (h2 : t ≠ 0) (h3 : p.currentPhase ≠ "intro") :
    (loadSavedGame state (some p)).currentPhase = p.currentPhase ∧
    (loadSavedGame state (some p)).challengeProgress = p.challengeProgress ∧
    (loadSavedGame state (some p)).startTime = p.startTime := by
  have hcond : (truthyStart p.startTime && (p.currentPhase != "intro")) = true := by
    simp [truthyStart, h1, h2, h3]
  simp only [loadSavedGame]
  rw [if_pos hcond]
  exact ⟨rfl, rfl, rfl⟩

/-- A persisted state captured mid-`"visual-acuity"`, with mid-stage progress
`currentLevel = 3`, mirroring the spec's Scenario D. -/
def savedMidStage : SavedState where
  userId := none
  sessionId := "session_1"
  currentPhase := "visual-acuity"
  completedChallenges := ["color-blindness"]
  stats := ⟨0, 0, 0, 0, 0, 0, []⟩
  unlockedTraits := []
  challengeResults := [("color-blindness", .jbool true)]
  challengeProgress :=
    [("visualAcuity", .jobj [("currentLevel", .jnum 3)])]
  startTime := some 1700000000000

/-- Witness for `C9_resume_restores_verbatim`: reloading with the persisted
mid-stage-`"visual-acuity"` state restores its phase and its
`challengeProgress` (with `currentLevel = 3`) exactly. -/
theorem C9_resume_restores_verbatim_witness :
    (loadSavedGame (initialState "session_2") (some savedMidStage)).currentPhase =
        savedMidStage.currentPhase ∧
    (loadSavedGame (initialState "session_2") (some savedMidStage)).challengeProgress =
        savedMidStage.challengeProgress ∧
    (loadSavedGame (initialState "session_2") (some savedMidStage)).startTime =
        savedMidStage.startTime :=
  C9_resume_restores_verbatim (initialState "session_2") savedMidStage
    1700000000000 rfl (by norm_num) (by decide)

/-! ## Kinematics analyzer (`MotorSkillsTracker.analyzeTrajectory`, part_002)

Coordinates and derived kinematics live in `ℝ`; JavaScript divisions whose
result can be non-finite go through `jsDiv`.  The section is classical and
noncomputable because of `Real.sqrt` and real-number comparisons.
-/

open scoped Classical

/-- JavaScript division: `none` models a non-finite result (`NaN` or
`±Infinity`), which arises exactly when the denominator is `0`; `some`
is the finite quotient. -/
noncomputable def jsDiv (a b : ℝ) : Option ℝ :=
  if b = 0 then none else some (a / b)

lemma jsDiv_of_ne (a b : ℝ) (h : b ≠ 0) : jsDiv a b = some (a / b) := if_neg h

/-- JavaScript `parseFloat(x.toFixed(k))`: rounding to `k` decimal places.
For the non-negative values produced here, `toFixed` (round half away from
zero) agrees with `round` (round half up). -/
noncomputable def rnd (k : ℕ) (x : ℝ) : ℝ :=
  ((round (x * 10 ^ k) : ℤ) : ℝ) / 10 ^ k

/-- One entry of `this.trajectoryPoints`: the seed pushed by
`trackPointerDown` has no `velocity`/`acceleration` fields (`none`); the
points pushed by `trackPointerMove` carry both. -/
structure TrajPoint where
  x : ℝ
  y : ℝ
  time : ℤ
  velocity : Option ℝ
  acceleration : Option ℝ

/-- Euclidean distance between two consecutive trajectory points,
`Math.sqrt(dx * dx + dy * dy)`. -/
noncomputable def segDist (p q : TrajPoint) : ℝ :=
  Real.sqrt ((q.x - p.x) ^ 2 + (q.y - p.y) ^ 2)

/-- Total path length: the loop `for (let i = 1; ...)` summing consecutive
Euclidean distances (part_002 lines 405-410). -/
noncomputable def pathLengthOf : List TrajPoint → ℝ
  | p :: q :: rest => segDist p q + pathLengthOf (q :: rest)
  | _ => 0

lemma pathLengthOf_nil : pathLengthOf [] = 0 := rfl

lemma pathLengthOf_single (p : TrajPoint) : pathLengthOf [p] = 0 := rfl

lemma pathLengthOf_cons2 (p q : TrajPoint) (rest : List TrajPoint) :
    pathLengthOf (p :: q :: rest) = segDist p q + pathLengthOf (q :: rest) := rfl

/-- The velocity list `trajectoryPoints.filter(p => p.velocity).map(p =>
p.velocity)` (part_002 line 423): JavaScript truthiness drops both an absent
`velocity` field and a `velocity` of `0`. -/
noncomputable def velocitiesOf (pts : List TrajPoint) : List ℝ :=
  (pts.filter (fun p =>
    match p.velocity with
    | some v => decide (v ≠ 0)
    | none => false)).filterMap (fun p => p.velocity)

/-- The smoothness computation (part_002 lines 424-427):
`avgVelocity = Σv / n`, `velocityVariance = Σ(v - avg)² / n`,
`smoothness = 1 / (1 + sqrt(variance) / avgVelocity)`, with non-finite
intermediate results (`n = 0` gives `0/0 = NaN`) propagating to the result. -/
noncomputable def smoothnessOf (vs : List ℝ) : Option ℝ :=
  (jsDiv vs.sum (vs.length : ℝ)).bind fun avgVelocity =>
  (jsDiv ((vs.map (fun v => (v - avgVelocity) ^ 2)).sum) (vs.length : ℝ)).bind
    fun velocityVariance =>
  (jsDiv (Real.sqrt velocityVariance) avgVelocity).bind fun ratio =>
  jsDiv 1 (1 + ratio)

/-- The record returned by `analyzeTrajectory`; `straightDistance` and
`averageVelocity` are absent (`none`) in the fewer-than-2-points default. -/
structure TrajectoryMetrics where
  pathLength : ℝ
  straightDistance : Option ℝ
  straightness : Option ℝ
  smoothness : Option ℝ
  pointCount : ℕ
  averageVelocity : Option ℝ

/-- Method `analyzeTrajectory` (part_002 lines 394-437): fewer than 2 points
return the neutral defaults `{pathLength: 0, straightness: 1, smoothness: 1}`;
otherwise the derived metrics, rounded with `toFixed`.  The `headD`/`getLastD`
defaults are unreachable (the list has at least 2 points there). -/
noncomputable def analyzeTrajectory (pts : List TrajPoint) : TrajectoryMetrics :=
  if pts.length < 2 then
    { pathLength := 0, straightDistance := none, straightness := some 1,
      smoothness := some 1, pointCount := pts.length, averageVelocity := none }
  else
    let pl := pathLengthOf pts
    let first := pts.headD ⟨0, 0, 0, none, none⟩
    let last := pts.getLastD ⟨0, 0, 0, none, none⟩
    let sd := segDist first last
    let vs := velocitiesOf pts
    { pathLength := rnd 2 pl,
      straightDistance := some (rnd 2 sd),
      straightness := (jsDiv sd pl).map (rnd 3),
      smoothness := (smoothnessOf vs).map (rnd 3),
      pointCount := pts.length,
      averageVelocity := (jsDiv vs.sum (vs.length : ℝ)).map (rnd 2) }

lemma round_mono_real {x y : ℝ} (h : x ≤ y) : round x ≤ round y := by
  rw [round_eq, round_eq]
  exact Int.floor_mono (by linarith)

lemma rnd_nonneg (k : ℕ) {x : ℝ} (hx : 0 ≤ x) : 0 ≤ rnd k x := by
  unfold rnd
  apply div_nonneg _ (by positivity)
  have h : (round (0 : ℝ) : ℤ) ≤ round (x * 10 ^ k) :=
    round_mono_real (by positivity)
  rw [round_zero] at h
  exact_mod_cast h

lemma rnd_le_one (k : ℕ) {x : ℝ} (hx : x ≤ 1) : rnd k x ≤ 1 := by
  unfold rnd
  rw [div_le_one (by positivity)]
  have h1 : round (x * 10 ^ k) ≤ round ((10 : ℝ) ^ k) := by
    apply round_mono_real
    calc x * 10 ^ k ≤ 1 * 10 ^ k := by
          apply mul_le_mul_of_nonneg_right hx (by positivity)
      _ = 10 ^ k := one_mul _
  have h2 : round ((10 : ℝ) ^ k) = ((10 : ℤ) ^ k : ℤ) := by
    rw [show ((10 : ℝ) ^ k) = (((10 : ℤ) ^ k : ℤ) : ℝ) by push_cast; ring,
      round_intCast]
  rw [h2] at h1
  calc ((round (x * 10 ^ k) : ℤ) : ℝ) ≤ (((10 : ℤ) ^ k : ℤ) : ℝ) := by exact_mod_cast h1
    _ = (10 : ℝ) ^ k := by push_cast; ring

lemma segDist_eq_abs (p q : TrajPoint) :
    segDist p q = Complex.abs ⟨q.x - p.x, q.y - p.y⟩ := by
  rw [Complex.abs_apply, Complex.normSq_mk, segDist]
  congr 1
  ring

lemma segDist_nonneg (p q : TrajPoint) : 0 ≤ segDist p q :=
  Real.sqrt_nonneg _

lemma segDist_triangle (p q r : TrajPoint) :
    segDist p r ≤ segDist p q + segDist q r := by
  rw [segDist_eq_abs, segDist_eq_abs, segDist_eq_abs]
  have h : (⟨r.x - p.x, r.y - p.y⟩ : ℂ) =
      (⟨q.x - p.x, q.y - p.y⟩ : ℂ) + ⟨r.x - q.x, r.y - q.y⟩ := by
    apply Complex.ext <;> simp
  rw [h]
  calc Complex.abs ((⟨q.x - p.x, q.y - p.y⟩ : ℂ) + ⟨r.x - q.x, r.y - q.y⟩)
      ≤ Complex.abs (⟨q.x - p.x, q.y - p.y⟩ : ℂ) +
        Complex.abs (⟨r.x - q.x, r.y - q.y⟩ : ℂ) := Complex.abs.add_le _ _
    _ = _ := rfl

lemma pathLengthOf_nonneg (pts : List TrajPoint) : 0 ≤ pathLengthOf pts := by
  induction pts with
  | nil => simp [pathLengthOf]
  | cons p rest ih =>
      cases rest with
      | nil => simp [pathLengthOf]
      | cons q rest' =>
          rw [pathLengthOf]
          exact add_nonneg (segDist_nonneg p q) ih

lemma straight_le_path (p : TrajPoint) (rest : List TrajPoint) :
    segDist p (rest.getLastD p) ≤ pathLengthOf (p :: rest) := by
  induction rest generalizing p with
  | nil =>
      simp [pathLengthOf, segDist]
  | cons q rest' ih =>
      rw [List.getLastD_cons]
      calc segDist p (rest'.getLastD q)
          ≤ segDist p q + segDist q (rest'.getLastD q) := segDist_triangle p q _
        _ ≤ segDist p q + pathLengthOf (q :: rest') := by linarith [ih q]
        _ = pathLengthOf (p :: q :: rest') := (by rw [pathLengthOf])

/-- Claim C5 as amended — for a trajectory of at least 2 points whose path
length is non-zero, the straightness value is a finite number in `[0, 1]`
(the triangle inequality gives `straightDistance ≤ pathLength`); for fewer
than 2 points the analyzer returns the neutral defaults `pathLength = 0`,
`straightness = 1`, `smoothness = 1`.  When the path length is `0` the
straightness is the non-finite `0/0` (see the counterexample), not `1.0`. -/
theorem C5_straightness_bounds :
    (∀ pts : List TrajPoint, 2 ≤ pts.length → pathLengthOf pts ≠ 0 →
        ∃ s, (analyzeTrajectory pts).straightness = some s ∧ 0 ≤ s ∧ s ≤ 1) ∧
    (∀ pts : List TrajPoint, pts.length < 2 →
        (analyzeTrajectory pts).pathLength = 0 ∧
        (analyzeTrajectory pts).straightness = some 1 ∧
        (analyzeTrajectory pts).smoothness = some 1) := by
  constructor
  · intro pts h2 hpl
    match pts, h2 with
    | p :: rest, h2' =>
      have hlast : (p :: rest).getLastD ⟨0, 0, 0, none, none⟩ = rest.getLastD p :=
        List.getLastD_cons _ _ _
      have hple : 0 < pathLengthOf (p :: rest) :=
        lt_of_le_of_ne (pathLengthOf_nonneg _) (Ne.symm hpl)
      have hsd : segDist p ((p :: rest).getLastD ⟨0, 0, 0, none, none⟩) ≤
          pathLengthOf (p :: rest) := by
        rw [hlast]
        exact straight_le_path p rest
      refine ⟨rnd 3 (segDist p ((p :: rest).getLastD ⟨0, 0, 0, none, none⟩) /
        pathLengthOf (p :: rest)), ?_, ?_, ?_⟩
      · rw [analyzeTrajectory, if_neg (Nat.not_lt.mpr h2')]
        dsimp only
        rw [jsDiv_of_ne _ _ hpl]
        rfl
      · exact rnd_nonneg 3 (div_nonneg (segDist_nonneg _ _) hple.le)
      · exact rnd_le_one 3 ((div_le_one hple).mpr hsd)
  · intro pts hlt
    rw [analyzeTrajectory, if_pos hlt]
    exact ⟨rfl, rfl, rfl⟩

/-- A two-point gesture that never moves: the pointer-down seed and one move
sample at the same position. -/
def zeroPathGesture : List TrajPoint :=
  [⟨1, 2, 0, none, none⟩, ⟨1, 2, 40, some 0, some 0⟩]

/-- Witness for `C5_straightness_bounds`: a concrete straight two-point
gesture from `(0,0)` to `(3,4)` (path length `5`), and a concrete one-point
trajectory. -/
theorem C5_straightness_bounds_witness :
    (∃ s, (analyzeTrajectory
        [⟨0, 0, 0, none, none⟩, ⟨3, 4, 33, some 5, some 0⟩]).straightness = some s ∧
        0 ≤ s ∧ s ≤ 1) ∧
    ((analyzeTrajectory [⟨0, 0, 0, none, none⟩]).pathLength = 0 ∧
      (analyzeTrajectory [⟨0, 0, 0, none, none⟩]).straightness = some 1 ∧
      (analyzeTrajectory [⟨0, 0, 0, none, none⟩]).smoothness = some 1) := by
  constructor
  · apply C5_straightness_bounds.1 _ (by simp)
    have h5 : pathLengthOf [⟨0, 0, 0, none, none⟩, ⟨3, 4, 33, some 5, some 0⟩] =
        Real.sqrt 25 := by
      rw [pathLengthOf_cons2, pathLengthOf_single, segDist]
      norm_num
    rw [h5]
    have : (0 : ℝ) < Real.sqrt 25 := Real.sqrt_pos.mpr (by norm_num)
    exact this.ne'
  · exact C5_straightness_bounds.2 _ (by simp)

/-- Counterexample to claim C5 — on a 2-point trajectory with `pathLength = 0`
(the pointer never moved), the straightness is `0/0`, a non-finite `NaN`
(`none` in the model), not the claimed `1.0`. -/
theorem C5_counterexample :
    pathLengthOf zeroPathGesture = 0 ∧
    (analyzeTrajectory zeroPathGesture).straightness = none := by
  have hpl : pathLengthOf zeroPathGesture = 0 := by
    rw [zeroPathGesture, pathLengthOf_cons2, pathLengthOf_single, segDist]
    norm_num
  refine ⟨hpl, ?_⟩
  rw [analyzeTrajectory, if_neg (by simp [zeroPathGesture])]
  dsimp only
  rw [hpl]
  simp [jsDiv]

lemma velocitiesOf_sound (pts : List TrajPoint) :
    ∀ v ∈ velocitiesOf pts, ∃ p ∈ pts, p.velocity = some v ∧ v ≠ 0 := by
  intro v hv
  rw [velocitiesOf, List.mem_filterMap] at hv
  obtain ⟨p, hp, hpv⟩ := hv
  rw [List.mem_filter] at hp
  refine ⟨p, hp.1, hpv, ?_⟩
  have := hp.2
  rw [hpv] at this
  simpa using this

lemma velocitiesOf_ne_nil (pts : List TrajPoint) (p : TrajPoint) (v : ℝ)
    (hp : p ∈ pts) (hv : p.velocity = some v) (hvne : v ≠ 0) :
    velocitiesOf pts ≠ [] := by
  apply List.ne_nil_of_mem (a := v)
  rw [velocitiesOf, List.mem_filterMap]
  refine ⟨p, ?_, hv⟩
  rw [List.mem_filter]
  exact ⟨hp, by rw [hv]; simpa using hvne⟩

lemma smoothnessOf_bounds (vs : List ℝ) (hne : vs ≠ [])
    (hpos : ∀ v ∈ vs, 0 < v) :
    ∃ s, smoothnessOf vs = some s ∧ 0 < s ∧ s ≤ 1 := by
  have hlen : (0 : ℝ) < (vs.length : ℝ) := by
    exact_mod_cast List.length_pos.mpr hne
  have hsum : 0 < vs.sum := List.sum_pos vs hpos hne
  have havg : 0 < vs.sum / (vs.length : ℝ) := div_pos hsum hlen
  have hratio : 0 ≤ Real.sqrt ((vs.map
      (fun v => (v - vs.sum / (vs.length : ℝ)) ^ 2)).sum / (vs.length : ℝ)) /
      (vs.sum / (vs.length : ℝ)) :=
    div_nonneg (Real.sqrt_nonneg _) havg.le
  rw [smoothnessOf, jsDiv_of_ne _ _ hlen.ne', Option.some_bind,
    jsDiv_of_ne _ _ hlen.ne', Option.some_bind,
    jsDiv_of_ne _ _ havg.ne', Option.some_bind,
    jsDiv_of_ne _ _ (by linarith : (1 : ℝ) + _ ≠ 0)]
  refine ⟨_, rfl, ?_, ?_⟩
  · exact div_pos one_pos (by linarith)
  · rw [div_le_one (by linarith)]
    linarith

/-- Claim C6 as amended — for a trajectory of at least 2 points whose recorded
velocities are non-negative (as every tracker-produced velocity is) and at
least one of them is non-zero, the smoothness value is a well-defined finite
number in `[0, 1]`.  When every recorded velocity is `0` or absent, the
truthiness filter empties the velocity list and the computation degenerates
to `0/0`: the smoothness is `NaN`, not a finite number (see the
counterexample). -/
theorem C6_smoothness_defined :
    ∀ pts : List TrajPoint, 2 ≤ pts.length →
      (∀ p ∈ pts, ∀ v, p.velocity = some v → 0 ≤ v) →
      (∃ p ∈ pts, ∃ v, p.velocity = some v ∧ v ≠ 0) →
      ∃ s, (analyzeTrajectory pts).smoothness = some s ∧ 0 ≤ s ∧ s ≤ 1 := by
  intro pts h2 hnonneg hexists
  obtain ⟨p, hp, v, hv, hvne⟩ := hexists
  have hne := velocitiesOf_ne_nil pts p v hp hv hvne
  have hpos : ∀ w ∈ velocitiesOf pts, 0 < w := by
    intro w hw
    obtain ⟨q, hq, hqv, hwne⟩ := velocitiesOf_sound pts w hw
    exact lt_of_le_of_ne (hnonneg q hq w hqv) (Ne.symm hwne)
  obtain ⟨s0, hs0, hs0pos, hs0le⟩ := smoothnessOf_bounds (velocitiesOf pts) hne hpos
  refine ⟨rnd 3 s0, ?_, rnd_nonneg 3 hs0pos.le, rnd_le_one 3 hs0le⟩
  rw [analyzeTrajectory, if_neg (Nat.not_lt.mpr h2)]
  dsimp only
  rw [hs0]
  rfl

/-- A two-point gesture whose single recorded velocity is `0`: the pointer
stood still, so the average velocity across the gesture is `0`. -/
def stillGesture : List TrajPoint :=
  [⟨6, 6, 0, none, none⟩, ⟨6, 6, 50, some 0, some 0⟩]

/-- Witness for `C6_smoothness_defined`: a concrete two-point gesture with
one non-zero recorded velocity. -/
theorem C6_smoothness_defined_witness :
    ∃ s, (analyzeTrajectory
        [⟨0, 0, 0, none, none⟩, ⟨3, 4, 66, some 7, some 0⟩]).smoothness = some s ∧
      0 ≤ s ∧ s ≤ 1 := by
  refine C6_smoothness_defined _ (by simp) ?_ ?_
  · intro p hp v hv
    simp only [List.mem_cons, List.not_mem_nil, or_false] at hp
    rcases hp with rfl | rfl
    · simp at hv
    · simp only [Option.some.injEq] at hv
      rw [← hv]
      norm_num
  · exact ⟨⟨3, 4, 66, some 7, some 0⟩, by simp, 7, rfl, by norm_num⟩

/-- Counterexample to claim C6 — on a 2-point gesture whose only recorded
velocity is `0` (average velocity `0`), the truthiness filter drops every
velocity, `avgVelocity` becomes `0/0 = NaN`, and the smoothness is the
non-finite `none`, not a well-defined finite number. -/
theorem C6_counterexample :
    (analyzeTrajectory stillGesture).smoothness = none := by
  have hvs : velocitiesOf stillGesture = [] := by
    simp [velocitiesOf, stillGesture]
  rw [analyzeTrajectory, if_neg (by simp [stillGesture])]
  dsimp only
  rw [hvs]
  simp [smoothnessOf, jsDiv]

/-! ## Pointer sampler (`MotorSkillsTracker.trackPointerMove`, part_002)

The sampler fields of the tracker and the `trackPointerMove` method: the
move-throttle, the normalized sample buffer with its `SAMPLE_INTERVAL`
cadence and 1000-entry cap, and the velocity/trajectory bookkeeping.
-/

/-- Constant `this.SAMPLE_INTERVAL = 33` ms, ~30 Hz (part_002 line 29). -/
def SAMPLE_INTERVAL : ℤ := 33

/-- Constant `this.MOVE_TRACK_INTERVAL = 33` ms (part_002 line 40). -/
def MOVE_TRACK_INTERVAL : ℤ := 33

/-- One normalized pointer sample (part_002 lines 113-120); the normalized
coordinates go through `jsDiv`, so `none` models a non-finite value. -/
structure PointerSample where
  round : ℕ
  tms : ℤ
  x : Option ℝ
  y : Option ℝ
  isDown : Bool
  pointerType : String

/-- One entry of `this.velocityHistory` (part_002 lines 145-149). -/
structure VelocityEntry where
  velocity : ℝ
  acceleration : ℝ
  time : ℤ

/-- The sampler portion of the `MotorSkillsTracker` state (part_002 lines
20-40). -/
structure TrackerState where
  lastMoveTrackTime : ℤ
  lastSampleTime : ℤ
  pointerSamples : List PointerSample
  isPointerDown : Bool
  lastPosition : Option (ℝ × ℝ)
  velocityHistory : List VelocityEntry
  trajectoryPoints : List TrajPoint
  round : ℕ

/-- Constructor state of the sampler fields (part_002 lines 20-40). -/
def initTracker : TrackerState :=
  { lastMoveTrackTime := 0, lastSampleTime := 0, pointerSamples := [],
    isPointerDown := false, lastPosition := none, velocityHistory := [],
    trajectoryPoints := [], round := 1 }

/-- One raw pointer-move call: `Date.now()`, the `getCoordinates` result, the
`window.innerWidth`/`innerHeight` at that instant (`0` models a degenerate or
unavailable viewport), and the pointer type. -/
structure MoveEvent where
  now : ℤ
  clientX : ℝ
  clientY : ℝ
  screenWidth : ℝ
  screenHeight : ℝ
  pointerType : String

/-- The normalized sample built at part_002 lines 113-120. -/
noncomputable def newSample (st : TrackerState) (e : MoveEvent) : PointerSample :=
  { round := st.round, tms := e.now,
    x := jsDiv e.clientX e.screenWidth,
    y := jsDiv e.clientY e.screenHeight,
    isDown := st.isPointerDown, pointerType := e.pointerType }

/-- The sample-storing section of `trackPointerMove` (part_002 lines
108-128): push a normalized sample when `SAMPLE_INTERVAL` has elapsed since
`lastSampleTime`, then cap the buffer at 1000 entries by keeping the last 800
(`slice(-800)`). -/
noncomputable def samplePush (st : TrackerState) (e : MoveEvent) : TrackerState :=
  if SAMPLE_INTERVAL ≤ e.now - st.lastSampleTime then
    let samples := st.pointerSamples ++ [newSample st e]
    { st with
        pointerSamples :=
          if 1000 < samples.length then samples.drop (samples.length - 800) else samples,
        lastSampleTime := e.now }
  else st

/-- The velocity/trajectory section of `trackPointerMove` (part_002 lines
130-169): when a `lastPosition` exists and the time delta against the last
trajectory point is positive, push a velocity-history entry (capped at 10 by
`shift()`) and a trajectory point (capped at 100, keeping the last 80).  The
`|| now` fallback of `trajectoryPoints[len-1]?.time` also fires on a falsy
time `0`. -/
noncomputable def velocityUpdate (st : TrackerState) (e : MoveEvent) : TrackerState :=
  match st.lastPosition with
  | none => st
  | some lp =>
      let lastT : ℤ :=
        match st.trajectoryPoints.getLast? with
        | some tp => if tp.time = 0 then e.now else tp.time
        | none => e.now
      let dt := e.now - lastT
      if 0 < dt then
        let distance := Real.sqrt ((e.clientX - lp.1) * (e.clientX - lp.1) +
          (e.clientY - lp.2) * (e.clientY - lp.2))
        let velocity := distance / ((dt : ℝ) / 1000)
        let acceleration : ℝ :=
          match st.velocityHistory.getLast? with
          | some vh => (velocity - vh.velocity) / ((dt : ℝ) / 1000)
          | none => 0
        let vh' := st.velocityHistory ++ [⟨velocity, acceleration, e.now⟩]
        let tp' := st.trajectoryPoints ++
          [{ x := e.clientX, y := e.clientY, time := e.now,
             velocity := some velocity, acceleration := some acceleration }]
        { st with
            velocityHistory := if 10 < vh'.length then vh'.tail else vh',
            trajectoryPoints :=
              if 100 < tp'.length then tp'.drop (tp'.length - 80) else tp' }
      else st

/-- Method `trackPointerMove` (part_002 lines 97-172): return unchanged when
throttled (`MOVE_TRACK_INTERVAL`), otherwise record the throttle time, run the
sample-storing section, the velocity/trajectory section, and finally update
`lastPosition`. -/
noncomputable def trackPointerMove (st : TrackerState) (e : MoveEvent) : TrackerState :=
  if e.now - st.lastMoveTrackTime < MOVE_TRACK_INTERVAL then st
  else
    let st1 := { st with lastMoveTrackTime := e.now }
    let st2 := samplePush st1 e
    let st3 := velocityUpdate st2 e
    { st3 with lastPosition := some (e.clientX, e.clientY) }

/-- Run a sequence of raw pointer-move calls. -/
noncomputable def runMoves (st : TrackerState) (es : List MoveEvent) : TrackerState :=
  es.foldl trackPointerMove st

/-- The sampler invariant: every stored sample was captured no later than
`lastSampleTime`, and consecutive samples are at least `SAMPLE_INTERVAL`
apart. -/
def samplerInv (st : TrackerState) : Prop :=
  (∀ s ∈ st.pointerSamples, s.tms ≤ st.lastSampleTime) ∧
  List.Chain' (fun a b => SAMPLE_INTERVAL ≤ b.tms - a.tms) st.pointerSamples

lemma velocityUpdate_pointerSamples (st : TrackerState) (e : MoveEvent) :
    (velocityUpdate st e).pointerSamples = st.pointerSamples ∧
    (velocityUpdate st e).lastSampleTime = st.lastSampleTime := by
  rw [velocityUpdate]
  cases hlp : st.lastPosition with
  | none => exact ⟨rfl, rfl⟩
  | some lp =>
      dsimp only
      split_ifs <;> exact ⟨rfl, rfl⟩

lemma samplePush_inv (st : TrackerState) (e : MoveEvent) (h : samplerInv st) :
    samplerInv (samplePush st e) := by
  obtain ⟨hle, hchain⟩ := h
  have hSI : SAMPLE_INTERVAL = 33 := rfl
  simp only [samplePush]
  split_ifs with hdue hcap
  · constructor
    · intro s hs
      have hs' := List.drop_subset _ _ hs
      rcases List.mem_append.mp hs' with hmem | hmem
      · have := hle s hmem
        dsimp only
        omega
      · simp only [List.mem_singleton] at hmem
        subst hmem
        simp [newSample]
    · dsimp only
      apply List.Chain'.drop
      rw [List.chain'_append]
      refine ⟨hchain, List.chain'_singleton _, ?_⟩
      intro a ha b hb
      simp only [List.head?_cons, Option.mem_def, Option.some.injEq] at hb
      subst hb
      have := hle a (List.mem_of_mem_getLast? ha)
      simp only [newSample]
      omega
  · constructor
    · intro s hs
      rcases List.mem_append.mp hs with hmem | hmem
      · have := hle s hmem
        dsimp only
        omega
      · simp only [List.mem_singleton] at hmem
        subst hmem
        simp [newSample]
    · dsimp only
      rw [List.chain'_append]
      refine ⟨hchain, List.chain'_singleton _, ?_⟩
      intro a ha b hb
      simp only [List.head?_cons, Option.mem_def, Option.some.injEq] at hb
      subst hb
      have := hle a (List.mem_of_mem_getLast? ha)
      simp only [newSample]
      omega
  · exact ⟨hle, hchain⟩

lemma trackPointerMove_inv (st : TrackerState) (e : MoveEvent)
    (h : samplerInv st) : samplerInv (trackPointerMove st e) := by
  rw [trackPointerMove]
  split_ifs with hthrottle
  · exact h
  · dsimp only
    have hpush : samplerInv (samplePush { st with lastMoveTrackTime := e.now } e) :=
      samplePush_inv _ e ⟨h.1, h.2⟩
    obtain ⟨hvs, hvt⟩ :=
      velocityUpdate_pointerSamples (samplePush { st with lastMoveTrackTime := e.now } e) e
    constructor
    · intro s hs
      rw [hvt]
      exact hpush.1 s (by rwa [hvs] at hs)
    · rw [hvs]
      exact hpush.2

lemma runMoves_inv (es : List MoveEvent) (st : TrackerState) (h : samplerInv st) :
    samplerInv (runMoves st es) := by
  induction es generalizing st with
  | nil => simpa [runMoves] using h
  | cons e rest ih =>
      simpa [runMoves] using ih (trackPointerMove st e) (trackPointerMove_inv st e h)

/-- Claim C7 — for every sequence of raw pointer-move calls on a fresh
tracker, any two consecutive samples in the normalized sample buffer differ
in capture time by at least `SAMPLE_INTERVAL = 33` ms, regardless of how
frequently the raw handler was invoked. -/
theorem C7_sample_cadence (es : List MoveEvent) :
    List.Chain' (fun a b => SAMPLE_INTERVAL ≤ b.tms - a.tms)
      (runMoves initTracker es).pointerSamples :=
  (runMoves_inv es initTracker ⟨by simp [initTracker], by simp [initTracker]⟩).2

lemma mem_drop_concat {α : Type _} (l : List α) (a : α) (n : ℕ) (h : n ≤ l.length) :
    a ∈ (l ++ [a]).drop n := by
  rw [List.drop_append_eq_append_drop, Nat.sub_eq_zero_of_le h]
  simp

/-- Claim C10 as amended — `trackPointerMove` performs no viewport
availability check: whenever a raw move call passes the throttle and the
sample interval has elapsed, a sample is appended even when the viewport
width is `0` (unavailable), and its normalized `x` is the non-finite
`clientX / 0` (`none`), i.e. a malformed record enters the buffer instead of
being skipped. -/
theorem C10_no_viewport_guard (st : TrackerState) (e : MoveEvent)
    (h1 : ¬ e.now - st.lastMoveTrackTime < MOVE_TRACK_INTERVAL)
    (h2 : SAMPLE_INTERVAL ≤ e.now - st.lastSampleTime)
    (hw : e.screenWidth = 0) :
    ∃ s ∈ (trackPointerMove st e).pointerSamples, s.tms = e.now ∧ s.x = none := by
  rw [trackPointerMove, if_neg h1]
  dsimp only
  obtain ⟨hvs, _⟩ :=
    velocityUpdate_pointerSamples (samplePush { st with lastMoveTrackTime := e.now } e) e
  rw [hvs]
  have h2' : SAMPLE_INTERVAL ≤
      e.now - ({ st with lastMoveTrackTime := e.now } : TrackerState).lastSampleTime := h2
  rw [samplePush, if_pos h2']
  dsimp only
  have hx : (newSample { st with lastMoveTrackTime := e.now } e).x = none := by
    simp [newSample, hw, jsDiv]
  refine ⟨newSample { st with lastMoveTrackTime := e.now } e, ?_, rfl, hx⟩
  split_ifs with hcap
  · apply mem_drop_concat
    simp only [List.length_append, List.length_cons, List.length_nil] at hcap ⊢
    omega
  · simp

/-- A raw move call with a degenerate (unavailable) viewport: both dimensions
are `0`. -/
noncomputable def degenerateMove : MoveEvent :=
  { now := 100, clientX := 5, clientY := 7, screenWidth := 0, screenHeight := 0,
    pointerType := "mouse" }

/-- Counterexample to claim C10 — from the fresh tracker, a pointer-move call
with viewport dimensions `0` does not skip the sample: it appends a sample
whose normalized coordinates are both non-finite (`none`), so a malformed
record does reach the buffer. -/
theorem C10_counterexample :
    (trackPointerMove initTracker degenerateMove).pointerSamples =
      [{ round := 1, tms := 100, x := none, y := none, isDown := false,
         pointerType := "mouse" }] := by
  rw [trackPointerMove, if_neg (by norm_num [degenerateMove, initTracker, MOVE_TRACK_INTERVAL])]
  dsimp only
  obtain ⟨hvs, _⟩ :=
    velocityUpdate_pointerSamples
      (samplePush { initTracker with lastMoveTrackTime := degenerateMove.now }
        degenerateMove) degenerateMove
  rw [hvs]
  rw [samplePush,
    if_pos (by norm_num [degenerateMove, initTracker, SAMPLE_INTERVAL])]
  dsimp only
  rw [if_neg (by norm_num [initTracker])]
  simp [initTracker, newSample, degenerateMove, jsDiv]

/-- Witness for `C10_no_viewport_guard`: the fresh tracker and the concrete
degenerate move call. -/
theorem C10_no_viewport_guard_witness :
    ∃ s ∈ (trackPointerMove initTracker degenerateMove).pointerSamples,
      s.tms = degenerateMove.now ∧ s.x = none :=
  C10_no_viewport_guard initTracker degenerateMove
    (by norm_num [degenerateMove, initTracker, MOVE_TRACK_INTERVAL])
    (by norm_num [degenerateMove, initTracker, SAMPLE_INTERVAL]) rfl

/-! ## Overshoot detection (`MotorSkillsGame.sampleCursorPosition`,
MotorSkillsGame.jsx lines 231-268)

The per-frame distance-history window and the approach-then-recede check.
-/

/-- Constant `BUBBLE_RADIUS = 25` px (MotorSkillsGame.jsx line 41). -/
def BUBBLE_RADIUS : ℝ := 25

/-- Distance from the cursor to the nearest bubble (MotorSkillsGame.jsx lines
233-244): the loop folds `Math.min` starting from `Infinity`; for the
non-empty bubble lists on which the overshoot check runs this is the list
minimum, so the `getD 0` default is unreachable. -/
noncomputable def nearestBubbleDist (px py : ℝ) (bubbles : List (ℝ × ℝ)) : ℝ :=
  ((bubbles.map (fun b =>
    Real.sqrt ((px - b.1) * (px - b.1) + (py - b.2) * (py - b.2)))).min?).getD 0

/-- One overshoot-window step (MotorSkillsGame.jsx lines 246-267): push the
current distance, cap the history at 100 entries (`shift()`), and, once 3
samples exist, flag an overshoot when the distance was strictly decreasing
(`prev1 < prev2`), is now strictly increasing (`prev1 < curr`), and the
current distance is within `4 × BUBBLE_RADIUS`; on a flag the history resets
to `[]`. -/
noncomputable def overshootStep (history : List ℝ) (minDist : ℝ) : List ℝ × Bool :=
  let h1 := history ++ [minDist]
  let h2 := if 100 < h1.length then h1.tail else h1
  if 3 ≤ h2.length then
    let prev2 := h2.getD (h2.length - 3) 0
    let prev1 := h2.getD (h2.length - 2) 0
    let curr := h2.getD (h2.length - 1) 0
    if prev1 < prev2 ∧ prev1 < curr ∧ curr < BUBBLE_RADIUS * 4 then ([], true)
    else (h2, false)
  else (h2, false)

/-- The overshoot check as run each animation frame: skipped entirely when no
bubble is active (MotorSkillsGame.jsx line 232). -/
noncomputable def overshootObserve (history : List ℝ) (px py : ℝ)
    (bubbles : List (ℝ × ℝ)) : List ℝ × Bool :=
  if bubbles.isEmpty then (history, false)
  else overshootStep history (nearestBubbleDist px py bubbles)

lemma getD_concat3 (l : List ℝ) (p2 p1 d : ℝ) :
    (l ++ [p2, p1, d]).getD ((l ++ [p2, p1, d]).length - 3) 0 = p2 ∧
    (l ++ [p2, p1, d]).getD ((l ++ [p2, p1, d]).length - 2) 0 = p1 ∧
    (l ++ [p2, p1, d]).getD ((l ++ [p2, p1, d]).length - 1) 0 = d := by
  have hlen : (l ++ [p2, p1, d]).length = l.length + 3 := by simp
  refine ⟨?_, ?_, ?_⟩
  · rw [List.getD_eq_getElem?_getD, hlen, show l.length + 3 - 3 = l.length by omega,
      List.getElem?_append_right (le_refl _)]
    simp
  · rw [List.getD_eq_getElem?_getD, hlen, show l.length + 3 - 2 = l.length + 1 by omega,
      List.getElem?_append_right (by omega), show l.length + 1 - l.length = 1 by omega]
    simp
  · rw [List.getD_eq_getElem?_getD, hlen, show l.length + 3 - 1 = l.length + 2 by omega,
      List.getElem?_append_right (by omega), show l.length + 2 - l.length = 2 by omega]
    simp

lemma exists_concat2 (a b : ℝ) (t : List ℝ) :
    ∃ (l : List ℝ) (x y : ℝ), a :: b :: t = l ++ [x, y] := by
  induction t generalizing a b with
  | nil => exact ⟨[], a, b, rfl⟩
  | cons c t' ih =>
      obtain ⟨l', x, y, hxy⟩ := ih b c
      exact ⟨a :: l', x, y, by rw [List.cons_append, ← hxy]⟩

lemma overshootStep_flag_iff (l : List ℝ) (p2 p1 d : ℝ) :
    (overshootStep (l ++ [p2, p1]) d).2 = true ↔
      p1 < p2 ∧ p1 < d ∧ d < BUBBLE_RADIUS * 4 := by
  obtain ⟨l₀, hl₀⟩ : ∃ l₀ : List ℝ,
      (if 100 < ((l ++ [p2, p1]) ++ [d]).length then ((l ++ [p2, p1]) ++ [d]).tail
       else (l ++ [p2, p1]) ++ [d]) = l₀ ++ [p2, p1, d] := by
    split_ifs with hshift
    · rcases l with _ | ⟨c, l₂⟩
      · simp at hshift
      · exact ⟨l₂, by simp⟩
    · exact ⟨l, by simp⟩
  rw [overshootStep]
  dsimp only
  rw [hl₀]
  obtain ⟨g2, g1, gc⟩ := getD_concat3 l₀ p2 p1 d
  rw [if_pos (show 3 ≤ (l₀ ++ [p2, p1, d]).length by simp), g2, g1, gc]
  split_ifs with hcond
  · simp only [true_iff]
    exact hcond
  · simp only [false_iff]
    exact hcond

lemma overshootStep_reset (h : List ℝ) (d : ℝ)
    (hf : (overshootStep h d).2 = true) : (overshootStep h d).1 = [] := by
  rw [overshootStep] at hf ⊢
  dsimp only at hf ⊢
  split_ifs at hf ⊢ <;> simp_all

lemma overshootStep_short (h : List ℝ) (d : ℝ) (hlen : h.length < 2) :
    (overshootStep h d).2 = false := by
  rw [overshootStep]
  dsimp only
  split_ifs with h1 h2 h3 <;> try rfl
  all_goals
    exfalso
    simp only [List.length_tail, List.length_append, List.length_cons,
      List.length_nil] at *
    omega

/-- Claim C8 — the overshoot check flags an overshoot exactly when the
retained distance history ends with two entries `p2, p1` that were strictly
decreasing (`p1 < p2`), the newly sampled distance `d` is strictly increasing
again (`p1 < d`), and `d` is within `4 × BUBBLE_RADIUS`; on a flag the
history resets to `[]`, and from a reset window the next two samples can
never flag, so the same overshoot is not counted twice. -/
theorem C8_overshoot_window :
    (∀ (h : List ℝ) (d : ℝ),
        (overshootStep h d).2 = true ↔
          ∃ p1 p2, h.getLast? = some p1 ∧ h.dropLast.getLast? = some p2 ∧
            p1 < p2 ∧ p1 < d ∧ d < BUBBLE_RADIUS * 4) ∧
    (∀ (h : List ℝ) (d : ℝ),
        (overshootStep h d).2 = true → (overshootStep h d).1 = []) ∧
    (∀ d1 d2 : ℝ,
        (overshootStep [] d1).2 = false ∧
        (overshootStep (overshootStep [] d1).1 d2).2 = false) := by
  refine ⟨?_, overshootStep_reset, ?_⟩
  · intro h d
    rcases h with _ | ⟨a, _ | ⟨b, t⟩⟩
    · rw [overshootStep_short [] d (by simp)]
      simp
    · rw [overshootStep_short [a] d (by simp)]
      simp
    · obtain ⟨l, x, y, hxy⟩ := exists_concat2 a b t
      rw [hxy, overshootStep_flag_iff]
      have hgl : (l ++ [x, y]).getLast? = some y := by
        rw [show l ++ [x, y] = (l ++ [x]) ++ [y] by simp, List.getLast?_concat]
      have hgd : (l ++ [x, y]).dropLast.getLast? = some x := by
        rw [show l ++ [x, y] = (l ++ [x]) ++ [y] by simp, List.dropLast_concat,
          List.getLast?_concat]
      constructor
      · rintro ⟨h1, h2, h3⟩
        exact ⟨y, x, hgl, hgd, h1, h2, h3⟩
      · rintro ⟨p1, p2, hp1, hp2, h1, h2, h3⟩
        rw [hgl, Option.some.injEq] at hp1
        rw [hgd, Option.some.injEq] at hp2
        subst hp1
        subst hp2
        exact ⟨h1, h2, h3⟩
  · intro d1 d2
    have hfirst : (overshootStep [] d1).1 = [d1] := by
      rw [overshootStep]
      dsimp only
      rw [if_neg (by simp), if_neg (by simp)]
      simp
    refine ⟨overshootStep_short [] d1 (by simp), ?_⟩
    rw [hfirst]
    exact overshootStep_short [d1] d2 (by simp)

/-- Witness for `C8_overshoot_window`: concrete history `[5, 3]` (strictly
decreasing) and new distance `4` (receding again, within `100`): the step
flags and resets, and from the reset window two further samples cannot
flag. -/
theorem C8_overshoot_window_witness :
    (overshootStep [5, 3] 4).2 = true ∧ (overshootStep [5, 3] 4).1 = [] ∧
    (overshootStep [] 1).2 = false ∧
    (overshootStep (overshootStep [] 1).1 2).2 = false := by
  have hflag : (overshootStep [5, 3] 4).2 = true :=
    (C8_overshoot_window.1 [5, 3] 4).mpr
      ⟨3, 5, by simp, by simp, by norm_num, by norm_num,
        by norm_num [BUBBLE_RADIUS]⟩
  exact ⟨hflag, C8_overshoot_window.2.1 [5, 3] 4 hflag,
    (C8_overshoot_window.2.2 1 2).1, (C8_overshoot_window.2.2 1 2).2⟩

end Aura
